import Mathlib

/-!
Verification of the POC-semana10 repository against its natural-language
specification.

The development shallowly embeds the Python sources:
  * `src/monitoringbot.py` — the monitoring bot (`APIMonitor`): probe results,
    latency statistics, availability computation and the ASCII graph renderer.
  * `src/POC-sem5/app/...` — the FastAPI service: configuration, database
    repository, image-URL derivation, health endpoint and image-alt endpoint.

Python floats are modelled as rationals (`ℚ`); the arithmetic the claims
exercise is exact at every concrete input considered.  Fallible operations are
modelled by explicit outcome types (`Except`, parameterised predicates), and the
external collaborators (HTTP transport, the Supabase store, the filesystem) are
modelled by the interface the spec assigns to them: a transport outcome, a list
of store rows, a file-existence predicate.
-/

namespace Monitoring

/-- Embeds the `RequestResult` dataclass of `monitoringbot.py` (lines 21–28).
The `timestamp` field (wall-clock time) is omitted: no claim mentions it and
real time is ambient state. -/
structure RequestResult where
  status_code : Nat
  response_time : ℚ
  endpoint : String
  success : Bool
deriving DecidableEq, Repr

/-- Outcome of the underlying `requests.post`/`requests.get` call inside
`APIMonitor.test_endpoint`: either a completed HTTP response with a status
code, or a raised `requests.RequestException`. -/
inductive TransportOutcome where
  | response (status : Nat)
  | requestException
deriving DecidableEq, Repr

/-- Embeds `APIMonitor.test_endpoint` (`monitoringbot.py` lines 39–73).
The elapsed wall-clock time of the call is passed in as `elapsed`.  A completed
response with status `s` yields `success = (s == 200)`; a transport exception
is caught and reported as status 500 with `success = false`. -/
def test_endpoint (endpoint : String) (outcome : TransportOutcome) (elapsed : ℚ) :
    RequestResult :=
  match outcome with
  | TransportOutcome.response s =>
      { status_code := s, response_time := elapsed, endpoint := endpoint,
        success := s == 200 }
  | TransportOutcome.requestException =>
      { status_code := 500, response_time := elapsed, endpoint := endpoint,
        success := false }

/-- The running pair `(success_count, error_count)` accumulated by the loop of
`APIMonitor.check_availability` (`monitoringbot.py` lines 123–140): a probe
with status 200 increments the first counter, otherwise a status `≥ 500`
increments the second, and any other status touches neither. -/
def availCounts (results : List RequestResult) : Nat × Nat :=
  results.foldl
    (fun p r =>
      if r.status_code = 200 then (p.1 + 1, p.2)
      else if 500 ≤ r.status_code then (p.1, p.2 + 1)
      else p)
    (0, 0)

/-- The report dictionary returned by `APIMonitor.check_availability`
(`monitoringbot.py` lines 149–157), restricted to the fields the claims
mention. -/
structure AvailabilityReport where
  total_requests : Nat
  success_count : Nat
  error_count : Nat
  availability_percentage : ℚ
  success_rate : ℚ
deriving DecidableEq, Repr

/-- Embeds `APIMonitor.check_availability` (`monitoringbot.py` lines 113–157)
as a function of the list of probe results collected by its loop (the loop
itself only calls `test_endpoint` a fixed number of times and prints).
`availability_percentage` divides successes by `success_count + error_count`
when that sum is positive and is 0 otherwise (lines 142–147);
`success_rate` divides by the total number of probes (line 156). -/
def check_availability (results : List RequestResult) : AvailabilityReport :=
  let c := availCounts results
  { total_requests := results.length
    success_count := c.1
    error_count := c.2
    availability_percentage :=
      if 0 < c.1 + c.2 then ((c.1 : ℚ) / ((c.1 : ℚ) + (c.2 : ℚ))) * 100 else 0
    success_rate :=
      if 0 < results.length then ((c.1 : ℚ) / (results.length : ℚ)) * 100 else 0 }

/-- Python's builtin `min` over a non-empty list (a left fold); `listMin [] = 0`
is junk, matching the fact that the sources only apply `min` to non-empty
lists. -/
def listMin : List ℚ → ℚ
  | [] => 0
  | x :: xs => xs.foldl min x

/-- Python's builtin `max` over a non-empty list, dually to `listMin`. -/
def listMax : List ℚ → ℚ
  | [] => 0
  | x :: xs => xs.foldl max x

/-- Insertion of one element into an ascending list, the auxiliary step of
`pySorted`. -/
def insertSorted (a : ℚ) : List ℚ → List ℚ
  | [] => [a]
  | b :: bs => if a ≤ b then a :: b :: bs else b :: insertSorted a bs

/-- Python's `sorted` (ascending), realised as insertion sort. -/
def pySorted (xs : List ℚ) : List ℚ := xs.foldr insertSorted []

/-- Python's `statistics.median`: sort the data; for odd length take the middle
element, for even length average the two middle elements. -/
def pyMedian (xs : List ℚ) : ℚ :=
  let s := pySorted xs
  let n := xs.length
  if n % 2 = 1 then s.getD (n / 2) 0
  else (s.getD (n / 2 - 1) 0 + s.getD (n / 2) 0) / 2

/-- The report dictionary returned by `APIMonitor.check_latency`
(`monitoringbot.py` lines 101–110), restricted to the fields the claims
mention. -/
structure LatencyReport where
  total_requests : Nat
  avg_latency : ℚ
  min_latency : ℚ
  max_latency : ℚ
  median_latency : ℚ
  success_rate : ℚ
deriving DecidableEq, Repr

/-- Embeds the reporting part of `APIMonitor.check_latency` (`monitoringbot.py`
lines 99–111) as a function of the probe results its loop collected: with no
samples the function returns the empty dict (`none`); otherwise it reports
`statistics.mean`, `min`, `max`, `statistics.median` of the latencies and the
percentage of successful probes. -/
def check_latency (results : List RequestResult) : Option LatencyReport :=
  match results with
  | [] => none
  | _ :: _ =>
    let latencies := results.map (fun r => r.response_time)
    some
      { total_requests := results.length
        avg_latency := latencies.sum / (latencies.length : ℚ)
        min_latency := listMin latencies
        max_latency := listMax latencies
        median_latency := pyMedian latencies
        success_rate :=
          ((results.countP (fun r => r.success)) : ℚ) / (results.length : ℚ) * 100 }

/-- Python's `int()` applied to a real value: truncation toward zero. -/
def pyInt (q : ℚ) : Int := if 0 ≤ q then ⌊q⌋ else ⌈q⌉

/-- The point-to-row mapping of `APIMonitor._draw_ascii_graph`
(`monitoringbot.py` lines 199–204 and 210–215): with `height = 15`, a value
`v` is drawn on row `int((height - 1) * (1 - (v - min)/(max - min)))` when
`max > min`, and on row `height // 2 = 7` when all values are equal. -/
def rowOf (minv maxv v : ℚ) : Nat :=
  if minv < maxv then
    (pyInt ((15 - 1 : ℚ) * (1 - (v - minv) / (maxv - minv)))).toNat
  else 15 / 2

/-- The character grid of `_draw_ascii_graph`: a list of rows, each a list of
characters. -/
abbrev Grid := List (List Char)

/-- `[[' ' for _ in range(width)] for _ in range(height)]`
(`monitoringbot.py` line 196). -/
def mkGrid (h w : Nat) : Grid := List.replicate h (List.replicate w ' ')

/-- Reading `graph[y][x]`; out-of-range reads default to a blank. -/
def cellAt (g : Grid) (y x : Nat) : Char := (g.getD y []).getD x ' '

/-- Writing `graph[y][x] = c`; out-of-range writes are no-ops (the source only
ever writes in range, which the theorems establish). -/
def gridSet (g : Grid) (y x : Nat) (c : Char) : Grid :=
  g.set y ((g.getD y []).set x c)

/-- The inner loop `for line_y in range(start_y, end_y + 1)` of
`_draw_ascii_graph` (lines 219–221): starting at row `y`, for `k` consecutive
rows, write `c` into column `x` of every cell that is still blank. -/
def connectRun (x : Nat) (c : Char) : Nat → Nat → Grid → Grid
  | _, 0, g => g
  | y, k + 1, g =>
      connectRun x c (y + 1) k (if cellAt g y x = ' ' then gridSet g y x c else g)

/-- The connector-drawing block of `_draw_ascii_graph` (lines 217–221):
`start_y, end_y = sorted([prev_y, y])`, then fill the blank cells of column
`x` between them with `'│'` (or `'●'` when the two rows coincide). -/
def connect (g : Grid) (x y1 y2 : Nat) : Grid :=
  connectRun x (if min y1 y2 = max y1 y2 then '●' else '│')
    (min y1 y2) (max y1 y2 + 1 - min y1 y2) g

/-- The plotting loop `for i, value in enumerate(data)` of `_draw_ascii_graph`
(lines 198–221), acting on the precomputed row of each sample (`rowOf` is
applied to each data value up front; the source recomputes
`prev_y = rowOf data[i-1]` inline, which is the same value).  `prev` carries
the previous sample's row (`none` at `i = 0`, matching the `if i > 0:`
guard). -/
def plotLoop : Nat → Option Nat → List Nat → Grid → Grid
  | _, _, [], g => g
  | i, none, y :: rest, g =>
      plotLoop (i + 1) (some y) rest (gridSet g y i '●')
  | i, some py, y :: rest, g =>
      plotLoop (i + 1) (some y) rest (connect (gridSet g y i '●') (i - 1) py y)

/-- Embeds `APIMonitor._draw_ascii_graph` (`monitoringbot.py` lines 183–221)
up to the point where the grid is printed: on empty input the function prints
"No data" and returns (modelled as the empty grid); otherwise it builds a
15-row grid, one column per sample, plots every sample's dot and draws the
connector segments. -/
def draw_ascii_graph (data : List ℚ) : Grid :=
  match data with
  | [] => []
  | _ :: _ =>
      plotLoop 0 none (data.map (rowOf (listMin data) (listMax data)))
        (mkGrid 15 data.length)

end Monitoring

namespace PokeAPI

/-- Python's `str.lower()` (ASCII range, which covers every name the service
handles), written as a structural per-character map so that it evaluates;
it agrees with the library's `String.toLower` (see `get_image_url_format`'s
proof, which bridges the two via `String.map_eq`). -/
def pyLower (s : String) : String := { data := s.data.map Char.toLower }

/-- Embeds the `Settings` object of `app/core/config.py` (lines 4–9): both
fields are declared `str` but are given the *default value*
`os.getenv(VAR)`, which is `None` when the variable is unset. -/
structure Settings where
  DATABASE_URL : Option String
  DATABASE_API_KEY : Option String
deriving DecidableEq, Repr

/-- Pydantic `BaseSettings` field resolution, modelling the external pydantic
library on the interface `config.py` uses: a field's value is taken from the
environment when the variable is present; otherwise the declared default is
used *without validation* (pydantic does not validate default values unless
`validate_default` is set, which `config.py` does not set); only a field with
no default at all makes construction fail.  `env` is the merged view of the
process environment and the `.env` file. -/
def baseSettingsField (env : String → Option String) (var : String)
    (dflt : Option (Option String)) : Except String (Option String) :=
  match env var with
  | some v => Except.ok (some v)
  | none =>
    match dflt with
    | some d => Except.ok d
    | none => Except.error (var ++ " field required")

/-- Embeds the construction `settings = Settings()` of `app/core/config.py`
(line 11): each field carries the default `os.getenv(VAR)` (lines 5–6), so the
declared default always exists. -/
def mkSettings (env : String → Option String) : Except String Settings :=
  match baseSettingsField env "DATABASE_URL" (some (env "DATABASE_URL")),
        baseSettingsField env "DATABASE_API_KEY" (some (env "DATABASE_API_KEY")) with
  | Except.ok u, Except.ok k => Except.ok { DATABASE_URL := u, DATABASE_API_KEY := k }
  | Except.error e, _ => Except.error e
  | _, Except.error e => Except.error e

/-- One row of the external `stats` table, on the interface the spec gives the
store ("zero-or-one row with six numeric fields", plus the `Name` column the
query filters on). -/
structure StatsRow where
  Name : String
  HP : Int
  Attack : Int
  Defense : Int
  SpAtk : Int
  SpDef : Int
  Speed : Int
deriving DecidableEq, Repr

/-- The row filter performed by the store for
`supabase.table("stats").select("*").ilike("Name", search_name)` with
`search_name = pokemon_name.lower()` (`repositories.py` lines 45–50):
`ilike` matches the `Name` column against the lowercased pattern
case-insensitively, i.e. `lower(Name) = lower(pokemon_name)`. -/
def nameMatches (row : StatsRow) (pokemon_name : String) : Bool :=
  pyLower row.Name == pyLower pokemon_name

/-- Embeds `get_stats_from_db` of
`app/features/search/repositories.py` (lines 40–70), as a function of the
store's table contents `db`: the store returns the rows matching the
case-insensitive name filter; with at least one match the first row's six
numeric fields are returned in the fixed order HP, Attack, Defense, Sp. Atk,
Sp. Def, Speed; with no match the empty list is returned. -/
def get_stats_from_db (db : List StatsRow) (pokemon_name : String) : List Int :=
  let data := db.filter (fun r => nameMatches r pokemon_name)
  match data with
  | [] => []
  | record :: _ =>
      [record.HP, record.Attack, record.Defense, record.SpAtk, record.SpDef,
       record.Speed]

/-- Embeds `get_image_url` of `app/features/search/repositories.py`
(lines 72–78): the f-string `f"{base_url}/images/{pokemon_name.lower()}/0.jpg"`
is pure concatenation — no network call, no existence check. -/
def get_image_url (pokemon_name : String) (base_url : String) : String :=
  base_url ++ "/images/" ++ pyLower pokemon_name ++ "/0.jpg"

/-- The JSON payload returned by the `/health` handler of `app/main.py`
(lines 107–121), minus the wall-clock `timestamp` field. -/
structure HealthResponse where
  status : String
  service : String
  database : String
  error : Option String
deriving DecidableEq, Repr

/-- Embeds the `GET /health` handler `health_check` of `app/main.py`
(lines 96–121), as a function of the outcome of the store-reachability check
`get_supabase()`: both branches return a plain payload, which FastAPI serves
with HTTP status 200; the exception branch adds the `error` field. -/
def health_check (dbCheck : Except String Unit) : Nat × HealthResponse :=
  match dbCheck with
  | Except.ok _ =>
      (200, { status := "healthy", service := "pokemon-api",
              database := "connected", error := none })
  | Except.error e =>
      (200, { status := "unhealthy", service := "pokemon-api",
              database := "disconnected", error := some e })

/-- `IMAGE_FOLDER` of `app/features/poke_img/routes.py` (line 6), relative to
the process working directory (the `os.getcwd()` prefix is ambient and
constant for one process, so it is left implicit). -/
def IMAGE_FOLDER : String := "app/static/images"

/-- The two possible responses of the `/image-alt/{name}` handler: a 200 file
response with a media type, or an `HTTPException` with a status and a
`detail` message. -/
inductive ImageAltResponse where
  | fileResponse (status : Nat) (path : String) (media_type : String)
  | httpException (status : Nat) (detail : String)
deriving DecidableEq, Repr

/-- Embeds `get_image_fallback` of `app/features/poke_img/routes.py`
(lines 8–16), as a function of the filesystem (`file_exists` models
`os.path.exists`): look for `{lowercased name}.png` under `IMAGE_FOLDER`;
serve it with media type `image/png` (HTTP 200, the `FileResponse` default)
when present, otherwise raise `HTTPException(404, "Image not found")`. -/
def get_image_fallback (file_exists : String → Bool) (pokemon_name : String) :
    ImageAltResponse :=
  let filename := pyLower pokemon_name ++ ".png"
  let image_path := IMAGE_FOLDER ++ "/" ++ filename
  if file_exists image_path then
    ImageAltResponse.fileResponse 200 image_path "image/png"
  else
    ImageAltResponse.httpException 404 "Image not found"

end PokeAPI

namespace PokeAPI

/-- C3 (corrected) — Constructing the configuration never raises: because both
fields of `Settings` carry the default value `os.getenv(VAR)`, pydantic always
finds a default and performs no validation on it, so `Settings()` succeeds for
every environment and an absent variable simply yields a `None`-valued field.
Any startup failure is deferred to the store-client construction in
`app/core/database.py`, outside the configuration. -/
theorem mkSettings_never_fails (env : String → Option String) :
    mkSettings env =
      Except.ok { DATABASE_URL := env "DATABASE_URL",
                  DATABASE_API_KEY := env "DATABASE_API_KEY" } := by
  unfold mkSettings baseSettingsField
  cases hu : env "DATABASE_URL" <;> cases hk : env "DATABASE_API_KEY" <;> simp [hu, hk]

/-- C3 counterexample — With both required variables absent from the
environment, constructing the configuration does **not** raise: it succeeds
with both fields `None`, refuting the claim that absence of a required value
makes the configuration constructor raise and that the values have no
defaults. -/
theorem mkSettings_missing_env_ok :
    mkSettings (fun _ => none) =
      Except.ok { DATABASE_URL := none, DATABASE_API_KEY := none } := rfl

/-- C4 — For every store table and every name, `get_stats_from_db` returns
either the empty list (exactly when no row passes the case-insensitive name
filter) or the six numeric fields of the *first* matching row in the fixed
order HP, Attack, Defense, Sp. Atk, Sp. Def, Speed; consequently the result
length is 0 or 6.  The function is total, so the no-match case returns rather
than raising. -/
theorem get_stats_from_db_spec (db : List StatsRow) (pokemon_name : String) :
    ((get_stats_from_db db pokemon_name).length = 0 ∨
      (get_stats_from_db db pokemon_name).length = 6) ∧
    (db.filter (fun r => nameMatches r pokemon_name) = [] →
      get_stats_from_db db pokemon_name = []) ∧
    (∀ record rest,
      db.filter (fun r => nameMatches r pokemon_name) = record :: rest →
      get_stats_from_db db pokemon_name =
        [record.HP, record.Attack, record.Defense, record.SpAtk, record.SpDef,
         record.Speed]) := by
  unfold get_stats_from_db
  cases h : db.filter (fun r => nameMatches r pokemon_name) with
  | nil => simp
  | cons record rest =>
    refine ⟨Or.inr rfl, by simp, ?_⟩
    intro record2 rest2 h2
    cases h2
    rfl

/-- C4 witness — On a concrete two-row table, looking up "PIKACHU" matches the
row named "Pikachu" case-insensitively and returns its six stats in order,
while looking up "Missingno" returns the empty list. -/
theorem get_stats_from_db_spec_witness :
    ([{ Name := "Pikachu", HP := 35, Attack := 55, Defense := 40, SpAtk := 50,
        SpDef := 50, Speed := 90 },
      { Name := "Bulbasaur", HP := 45, Attack := 49, Defense := 49, SpAtk := 65,
        SpDef := 65, Speed := 45 }].filter
        (fun r => nameMatches r "PIKACHU") =
      [{ Name := "Pikachu", HP := 35, Attack := 55, Defense := 40, SpAtk := 50,
         SpDef := 50, Speed := 90 }]) ∧
    get_stats_from_db
      [{ Name := "Pikachu", HP := 35, Attack := 55, Defense := 40, SpAtk := 50,
         SpDef := 50, Speed := 90 },
       { Name := "Bulbasaur", HP := 45, Attack := 49, Defense := 49, SpAtk := 65,
         SpDef := 65, Speed := 45 }] "PIKACHU" = [35, 55, 40, 50, 50, 90] ∧
    get_stats_from_db
      [{ Name := "Pikachu", HP := 35, Attack := 55, Defense := 40, SpAtk := 50,
         SpDef := 50, Speed := 90 },
       { Name := "Bulbasaur", HP := 45, Attack := 49, Defense := 49, SpAtk := 65,
         SpDef := 65, Speed := 45 }] "Missingno" = [] := by
  refine ⟨by decide, ?_, ?_⟩
  · exact (get_stats_from_db_spec
      [{ Name := "Pikachu", HP := 35, Attack := 55, Defense := 40, SpAtk := 50,
         SpDef := 50, Speed := 90 },
       { Name := "Bulbasaur", HP := 45, Attack := 49, Defense := 49, SpAtk := 65,
         SpDef := 65, Speed := 45 }] "PIKACHU").2.2
      { Name := "Pikachu", HP := 35, Attack := 55, Defense := 40, SpAtk := 50,
        SpDef := 50, Speed := 90 } [] (by decide)
  · exact (get_stats_from_db_spec
      [{ Name := "Pikachu", HP := 35, Attack := 55, Defense := 40, SpAtk := 50,
         SpDef := 50, Speed := 90 },
       { Name := "Bulbasaur", HP := 45, Attack := 49, Defense := 49, SpAtk := 65,
         SpDef := 65, Speed := 45 }] "Missingno").2.1 (by decide)

/-- C5 — `get_image_url` is pure string formatting: for every name and base
URL it returns exactly `{base}/images/{lowercased name}/0.jpg`; there is no
network call and no check that the image exists (the function consults nothing
but its two string arguments). -/
theorem get_image_url_format (pokemon_name base_url : String) :
    get_image_url pokemon_name base_url =
      base_url ++ "/images/" ++ pokemon_name.toLower ++ "/0.jpg" := by
  simp [get_image_url, pyLower, String.toLower, String.map_eq]

/-- C6 — The `/health` handler never raises: for every outcome of the
store-reachability check it returns HTTP 200, with `status = "healthy"`
exactly when the check succeeded, `status = "unhealthy"` exactly when it
failed, and an `error` field present exactly in the failure case. -/
theorem health_check_spec (dbCheck : Except String Unit) :
    (health_check dbCheck).1 = 200 ∧
    ((health_check dbCheck).2.status = "healthy" ↔ dbCheck.isOk = true) ∧
    ((health_check dbCheck).2.status = "unhealthy" ↔ dbCheck.isOk = false) ∧
    ((health_check dbCheck).2.error.isSome = true ↔ dbCheck.isOk = false) := by
  cases dbCheck <;> simp [health_check, Except.isOk, Except.toBool]

/-- C7 — For every filesystem and name, the `/image-alt/{name}` handler
returns 200 with media type `image/png` when the file
`{lowercased name}.png` exists in the fixed image directory, and otherwise
returns exactly a 404 whose `detail` is "Image not found". -/
theorem get_image_fallback_spec (file_exists : String → Bool)
    (pokemon_name : String) :
    (file_exists (IMAGE_FOLDER ++ "/" ++ (pyLower pokemon_name ++ ".png")) = true →
      get_image_fallback file_exists pokemon_name =
        ImageAltResponse.fileResponse 200
          (IMAGE_FOLDER ++ "/" ++ (pyLower pokemon_name ++ ".png")) "image/png") ∧
    (file_exists (IMAGE_FOLDER ++ "/" ++ (pyLower pokemon_name ++ ".png")) = false →
      get_image_fallback file_exists pokemon_name =
        ImageAltResponse.httpException 404 "Image not found") := by
  unfold get_image_fallback
  constructor <;> intro h <;> simp [h]

/-- C7 witness — On a filesystem containing exactly
`app/static/images/pikachu.png`, the handler serves "PiKaChu" (lowercased
lookup) with 200/`image/png` and answers "eevee" with the 404. -/
theorem get_image_fallback_spec_witness :
    ((fun p => p == "app/static/images/pikachu.png")
        (IMAGE_FOLDER ++ "/" ++ (pyLower "PiKaChu" ++ ".png")) = true) ∧
    get_image_fallback (fun p => p == "app/static/images/pikachu.png") "PiKaChu" =
      ImageAltResponse.fileResponse 200 "app/static/images/pikachu.png"
        "image/png" ∧
    ((fun p => p == "app/static/images/pikachu.png")
        (IMAGE_FOLDER ++ "/" ++ (pyLower "eevee" ++ ".png")) = false) ∧
    get_image_fallback (fun p => p == "app/static/images/pikachu.png") "eevee" =
      ImageAltResponse.httpException 404 "Image not found" := by
  refine ⟨by decide, ?_, by decide, ?_⟩
  · exact ((get_image_fallback_spec _ "PiKaChu").1 (by decide)).trans (by decide)
  · exact (get_image_fallback_spec _ "eevee").2 (by decide)

end PokeAPI

namespace Monitoring

/-- C8 — `test_endpoint` never raises on a transport failure: a raised
`requests.RequestException` is caught and reported as a `RequestResult` with
status 500 and `success = false` (so one failed probe cannot abort a sampling
loop that calls `test_endpoint` repeatedly), and on a completed request
`success` is true exactly when the status code is 200. -/
theorem test_endpoint_spec (endpoint : String) (elapsed : ℚ) (s : Nat) :
    test_endpoint endpoint TransportOutcome.requestException elapsed =
      { status_code := 500, response_time := elapsed, endpoint := endpoint,
        success := false } ∧
    ((test_endpoint endpoint (TransportOutcome.response s) elapsed).success = true ↔
      s = 200) ∧
    (test_endpoint endpoint (TransportOutcome.response s) elapsed).status_code = s := by
  refine ⟨rfl, ?_, rfl⟩
  simp [test_endpoint]

/-- The counter pair accumulated by the availability loop equals the counts of
status-200 probes and of status-`≥ 500` probes (a probe can never fall in both
classes, since `200 < 500`). -/
theorem availCounts_go (l : List RequestResult) (a b : Nat) :
    l.foldl
      (fun p r =>
        if r.status_code = 200 then (p.1 + 1, p.2)
        else if 500 ≤ r.status_code then (p.1, p.2 + 1)
        else p)
      (a, b) =
    (a + l.countP (fun r => r.status_code == 200),
     b + l.countP (fun r => decide (500 ≤ r.status_code))) := by
  induction l generalizing a b with
  | nil => simp
  | cons r t ih =>
    simp only [List.foldl_cons, List.countP_cons]
    by_cases h1 : r.status_code = 200
    · have h2 : ¬ 500 ≤ r.status_code := by omega
      rw [if_pos h1, ih]
      refine Prod.ext ?_ ?_ <;> simp [h1, h2] <;> try omega
    · by_cases h2 : 500 ≤ r.status_code
      · rw [if_neg h1, if_pos h2, ih]
        refine Prod.ext ?_ ?_ <;> simp [h1, h2] <;> try omega
      · rw [if_neg h1, if_neg h2, ih]
        refine Prod.ext ?_ ?_ <;> simp [h1, h2] <;> try omega

/-- `availCounts` in terms of `countP`. -/
theorem availCounts_eq (l : List RequestResult) :
    availCounts l =
      (l.countP (fun r => r.status_code == 200),
       l.countP (fun r => decide (500 ≤ r.status_code))) := by
  simpa using availCounts_go l 0 0

/-- C2 — In every run where `s` probes returned status 200 and `e` probes
returned status `≥ 500`, with `s + e > 0`, the reported availability
percentage is `s / (s + e) * 100`; probes with any other status code are
counted in neither `s` nor `e`, so they are excluded from both numerator and
denominator. -/
theorem check_availability_formula (results : List RequestResult) (s e : Nat)
    (hs : results.countP (fun r => r.status_code == 200) = s)
    (he : results.countP (fun r => decide (500 ≤ r.status_code)) = e)
    (hpos : 0 < s + e) :
    (check_availability results).availability_percentage =
      ((s : ℚ) / ((s : ℚ) + (e : ℚ))) * 100 := by
  unfold check_availability
  rw [availCounts_eq]
  simp only [hs, he]
  rw [if_pos hpos]

/-- C2 witness — A run of 8 status-200 probes and 2 status-503 probes yields
availability 80%; a run of 8 status-200 probes and 2 status-404 ("other")
probes yields availability 100%, the "other" probes being excluded from the
denominator. -/
theorem check_availability_formula_witness :
    ((List.replicate 8
        ({ status_code := 200, response_time := 12, endpoint := "/poke/search",
           success := true } : RequestResult) ++
      List.replicate 2
        ({ status_code := 503, response_time := 12, endpoint := "/poke/search",
           success := false } : RequestResult)).countP (fun r => r.status_code == 200) = 8) ∧
    (0 < 8 + 2) ∧
    (check_availability
      (List.replicate 8
        ({ status_code := 200, response_time := 12, endpoint := "/poke/search",
           success := true } : RequestResult) ++
       List.replicate 2
        ({ status_code := 503, response_time := 12, endpoint := "/poke/search",
           success := false } : RequestResult))).availability_percentage = 80 ∧
    (check_availability
      (List.replicate 8
        ({ status_code := 200, response_time := 12, endpoint := "/poke/search",
           success := true } : RequestResult) ++
       List.replicate 2
        ({ status_code := 404, response_time := 12, endpoint := "/poke/search",
           success := false } : RequestResult))).availability_percentage = 100 := by
  have h80 := check_availability_formula
    (List.replicate 8
      ({ status_code := 200, response_time := 12, endpoint := "/poke/search",
         success := true } : RequestResult) ++
     List.replicate 2
      ({ status_code := 503, response_time := 12, endpoint := "/poke/search",
         success := false } : RequestResult)) 8 2 (by decide) (by decide) (by decide)
  have h100 := check_availability_formula
    (List.replicate 8
      ({ status_code := 200, response_time := 12, endpoint := "/poke/search",
         success := true } : RequestResult) ++
     List.replicate 2
      ({ status_code := 404, response_time := 12, endpoint := "/poke/search",
         success := false } : RequestResult)) 8 0 (by decide) (by decide) (by decide)
  refine ⟨by decide, by decide, ?_, ?_⟩
  · rw [h80]; norm_num
  · rw [h100]; norm_num

/-- C10 — The availability division is guarded: the reported availability
percentage always lies in `[0, 100]`, and in a run where every probe is
classified "other" (status neither 200 nor `≥ 500`, so
`success_count + error_count = 0`) it is 0 rather than a division error. -/
theorem check_availability_guard (results : List RequestResult) :
    0 ≤ (check_availability results).availability_percentage ∧
    (check_availability results).availability_percentage ≤ 100 ∧
    ((∀ r ∈ results, r.status_code ≠ 200 ∧ r.status_code < 500) →
      (check_availability results).availability_percentage = 0) := by
  unfold check_availability
  rw [availCounts_eq]
  refine ⟨?_, ?_, ?_⟩
  · simp only
    split
    · positivity
    · exact le_refl 0
  · simp only
    split
    · rename_i hpos
      have hq : (0 : ℚ) <
          ((results.countP (fun r => r.status_code == 200) : ℚ) +
            (results.countP (fun r => decide (500 ≤ r.status_code)) : ℚ)) := by
        have : 0 < results.countP (fun r => r.status_code == 200) +
            results.countP (fun r => decide (500 ≤ r.status_code)) := hpos
        exact_mod_cast this
      have hle : ((results.countP (fun r => r.status_code == 200) : ℚ) /
          ((results.countP (fun r => r.status_code == 200) : ℚ) +
            (results.countP (fun r => decide (500 ≤ r.status_code)) : ℚ))) ≤ 1 := by
        rw [div_le_one hq]
        have : (0 : ℚ) ≤ (results.countP (fun r => decide (500 ≤ r.status_code)) : ℚ) := by
          positivity
        linarith
      calc ((results.countP (fun r => r.status_code == 200) : ℚ) /
            ((results.countP (fun r => r.status_code == 200) : ℚ) +
              (results.countP (fun r => decide (500 ≤ r.status_code)) : ℚ))) * 100
          ≤ 1 * 100 := by
            exact mul_le_mul_of_nonneg_right hle (by norm_num)
        _ = 100 := by norm_num
    · norm_num
  · intro h
    have hs : results.countP (fun r => r.status_code == 200) = 0 :=
      List.countP_eq_zero.mpr (fun r hr => by simp [(h r hr).1])
    have he : results.countP (fun r => decide (500 ≤ r.status_code)) = 0 :=
      List.countP_eq_zero.mpr (fun r hr => by
        have := (h r hr).2
        simp
        omega)
    simp only [hs, he]
    norm_num

/-- C10 witness — On a run of three probes all answering 404 (every probe
"other"), the guard applies: the reported availability is 0, within
`[0, 100]`. -/
theorem check_availability_guard_witness :
    0 ≤ (check_availability (List.replicate 3
        ({ status_code := 404, response_time := 7, endpoint := "/poke/search",
           success := false } : RequestResult))).availability_percentage ∧
    (check_availability (List.replicate 3
        ({ status_code := 404, response_time := 7, endpoint := "/poke/search",
           success := false } : RequestResult))).availability_percentage ≤ 100 ∧
    (check_availability (List.replicate 3
        ({ status_code := 404, response_time := 7, endpoint := "/poke/search",
           success := false } : RequestResult))).availability_percentage = 0 := by
  refine ⟨?_, ?_, ?_⟩
  · exact (check_availability_guard _).1
  · exact (check_availability_guard _).2.1
  · exact (check_availability_guard _).2.2 (by decide)

/-- A left fold of `min` is bounded by its initial value. -/
theorem foldl_min_le_init (xs : List ℚ) (a : ℚ) : xs.foldl min a ≤ a := by
  induction xs generalizing a with
  | nil => exact le_refl a
  | cons x t ih => exact le_trans (ih (min a x)) (min_le_left a x)

/-- A left fold of `min` is bounded by every list element. -/
theorem foldl_min_le_mem (xs : List ℚ) (a x : ℚ) (hx : x ∈ xs) :
    xs.foldl min a ≤ x := by
  induction xs generalizing a with
  | nil => cases hx
  | cons y t ih =>
    rcases List.mem_cons.mp hx with h | h
    · subst h
      exact le_trans (foldl_min_le_init t (min a x)) (min_le_right a x)
    · exact ih (min a y) h

/-- A left fold of `min` is the initial value or one of the list elements. -/
theorem foldl_min_mem (xs : List ℚ) (a : ℚ) :
    xs.foldl min a = a ∨ xs.foldl min a ∈ xs := by
  induction xs generalizing a with
  | nil => exact Or.inl rfl
  | cons x t ih =>
    rcases ih (min a x) with h | h
    · rcases le_total a x with hax | hxa
      · exact Or.inl (by rw [List.foldl_cons, h, min_eq_left hax])
      · exact Or.inr (by rw [List.foldl_cons, h, min_eq_right hxa]; exact List.mem_cons_self x t)
    · exact Or.inr (List.mem_cons_of_mem x h)

/-- A left fold of `max` is bounded below by its initial value. -/
theorem le_foldl_max_init (xs : List ℚ) (a : ℚ) : a ≤ xs.foldl max a := by
  induction xs generalizing a with
  | nil => exact le_refl a
  | cons x t ih => exact le_trans (le_max_left a x) (ih (max a x))

/-- A left fold of `max` bounds every list element. -/
theorem le_foldl_max_mem (xs : List ℚ) (a x : ℚ) (hx : x ∈ xs) :
    x ≤ xs.foldl max a := by
  induction xs generalizing a with
  | nil => cases hx
  | cons y t ih =>
    rcases List.mem_cons.mp hx with h | h
    · subst h
      exact le_trans (le_max_right a x) (le_foldl_max_init t (max a x))
    · exact ih (max a y) h

/-- A left fold of `max` is the initial value or one of the list elements. -/
theorem foldl_max_mem (xs : List ℚ) (a : ℚ) :
    xs.foldl max a = a ∨ xs.foldl max a ∈ xs := by
  induction xs generalizing a with
  | nil => exact Or.inl rfl
  | cons x t ih =>
    rcases ih (max a x) with h | h
    · rcases le_total a x with hax | hxa
      · exact Or.inr (by rw [List.foldl_cons, h, max_eq_right hax]; exact List.mem_cons_self x t)
      · exact Or.inl (by rw [List.foldl_cons, h, max_eq_left hxa])
    · exact Or.inr (List.mem_cons_of_mem x h)

/-- On a non-empty list, `listMin` is a member and a lower bound. -/
theorem listMin_spec (xs : List ℚ) (h : xs ≠ []) :
    listMin xs ∈ xs ∧ ∀ x ∈ xs, listMin xs ≤ x := by
  cases xs with
  | nil => exact absurd rfl h
  | cons y t =>
    constructor
    · rcases foldl_min_mem t y with h1 | h1
      · rw [listMin, h1]; exact List.mem_cons_self y t
      · rw [listMin]; exact List.mem_cons_of_mem y h1
    · intro x hx
      rcases List.mem_cons.mp hx with h1 | h1
      · subst h1; rw [listMin]; exact foldl_min_le_init t x
      · exact foldl_min_le_mem t y x h1

/-- On a non-empty list, `listMax` is a member and an upper bound. -/
theorem listMax_spec (xs : List ℚ) (h : xs ≠ []) :
    listMax xs ∈ xs ∧ ∀ x ∈ xs, x ≤ listMax xs := by
  cases xs with
  | nil => exact absurd rfl h
  | cons y t =>
    constructor
    · rcases foldl_max_mem t y with h1 | h1
      · rw [listMax, h1]; exact List.mem_cons_self y t
      · rw [listMax]; exact List.mem_cons_of_mem y h1
    · intro x hx
      rcases List.mem_cons.mp hx with h1 | h1
      · subst h1; rw [listMax]; exact le_foldl_max_init t x
      · exact le_foldl_max_mem t y x h1

/-- C9 — On every non-empty list of collected probe results whose `success`
flags agree with "status code is 200" (which `test_endpoint` guarantees),
`check_latency` reports: a `total_requests` equal to the sample count, an
average latency that is the arithmetic mean (its product with the sample count
is the sample sum), a minimum latency that is a sample and a lower bound of
all samples, a maximum latency that is a sample and an upper bound of all
samples, the Python median of the samples, and a success rate equal to the
fraction of status-200 probes times 100. -/
theorem check_latency_stats (results : List RequestResult) (h : results ≠ [])
    (hflag : ∀ r ∈ results, r.success = (r.status_code == 200)) :
    ∃ rep, check_latency results = some rep ∧
      rep.total_requests = results.length ∧
      rep.avg_latency * (results.length : ℚ) =
        (results.map (fun r => r.response_time)).sum ∧
      rep.min_latency ∈ results.map (fun r => r.response_time) ∧
      (∀ x ∈ results.map (fun r => r.response_time), rep.min_latency ≤ x) ∧
      rep.max_latency ∈ results.map (fun r => r.response_time) ∧
      (∀ x ∈ results.map (fun r => r.response_time), x ≤ rep.max_latency) ∧
      rep.median_latency = pyMedian (results.map (fun r => r.response_time)) ∧
      rep.success_rate =
        ((results.countP (fun r => r.status_code == 200)) : ℚ) /
          (results.length : ℚ) * 100 := by
  cases hres : results with
  | nil => exact absurd hres h
  | cons r0 t0 =>
    subst hres
    have hmapne : (r0 :: t0).map (fun r => r.response_time) ≠ [] := by simp
    have hlen : ((r0 :: t0).map (fun r => r.response_time)).length =
        (r0 :: t0).length := List.length_map _ _
    refine ⟨_, rfl, rfl, ?_, (listMin_spec _ hmapne).1, (listMin_spec _ hmapne).2,
      (listMax_spec _ hmapne).1, (listMax_spec _ hmapne).2, rfl, ?_⟩
    · show (((r0 :: t0).map (fun r => r.response_time)).sum /
          ((((r0 :: t0).map (fun r => r.response_time)).length : ℚ))) *
          (((r0 :: t0).length : ℚ)) =
          ((r0 :: t0).map (fun r => r.response_time)).sum
      rw [hlen]
      have hne : (((r0 :: t0).length : ℚ)) ≠ 0 := Nat.cast_ne_zero.mpr (by simp)
      exact div_mul_cancel₀ _ hne
    · show (((r0 :: t0).countP (fun r => r.success)) : ℚ) /
          (((r0 :: t0).length : ℚ)) * 100 = _
      have : (r0 :: t0).countP (fun r => r.success) =
          (r0 :: t0).countP (fun r => r.status_code == 200) := by
        exact List.countP_congr (fun r hr => by rw [hflag r hr])
      rw [this]

/-- C9 witness — For three successful probes with latencies 10, 20 and 30 ms,
`check_latency` reports mean 20, min 10, max 30, median 20 and success rate
100%. -/
theorem check_latency_stats_witness :
    check_latency
      [{ status_code := 200, response_time := 10, endpoint := "/poke/search",
         success := true },
       { status_code := 200, response_time := 20, endpoint := "/poke/search",
         success := true },
       { status_code := 200, response_time := 30, endpoint := "/poke/search",
         success := true }] =
      some { total_requests := 3, avg_latency := 20, min_latency := 10,
             max_latency := 30, median_latency := 20, success_rate := 100 } := by
  obtain ⟨rep, hrep, hrest⟩ := check_latency_stats
    [{ status_code := 200, response_time := 10, endpoint := "/poke/search",
       success := true },
     { status_code := 200, response_time := 20, endpoint := "/poke/search",
       success := true },
     { status_code := 200, response_time := 30, endpoint := "/poke/search",
       success := true }] (by decide) (by decide)
  clear hrep hrest
  simp only [check_latency, pyMedian, pySorted, insertSorted, listMin, listMax,
    List.map, List.foldl, List.foldr, List.sum_cons, List.sum_nil,
    List.countP, List.countP.go, List.length, List.getD]
  norm_num [min_def, max_def]

/-- `getD` after `set` at the written index. -/
theorem getD_set_self {α : Type} (l : List α) (i : Nat) (a d : α)
    (h : i < l.length) : (l.set i a).getD i d = a := by
  rw [List.getD_eq_getElem?_getD, List.getElem?_set]
  simp [h]

/-- `getD` after `set` at a different index. -/
theorem getD_set_ne {α : Type} (l : List α) (i j : Nat) (a d : α)
    (h : i ≠ j) : (l.set i a).getD j d = l.getD j d := by
  rw [List.getD_eq_getElem?_getD, List.getElem?_set, if_neg h,
    List.getD_eq_getElem?_getD]

/-- The row `gridSet` leaves at index `y'`. -/
theorem getD_gridSet (g : Grid) (y x : Nat) (c : Char) (y' : Nat) :
    (gridSet g y x c).getD y' [] =
      if y = y' ∧ y < g.length then (g.getD y []).set x c
      else g.getD y' [] := by
  unfold gridSet
  by_cases h1 : y = y'
  · subst h1
    by_cases h2 : y < g.length
    · rw [getD_set_self _ _ _ _ h2]
      simp [h2]
    · have hset : g.set y ((g.getD y []).set x c) = g :=
        List.set_eq_of_length_le (le_of_not_lt h2)
      rw [hset]
      simp [h2]
  · rw [getD_set_ne _ _ _ _ _ h1]
    simp [h1]

/-- Reading back an in-range write. -/
theorem cellAt_gridSet_self (g : Grid) (y x : Nat) (c : Char)
    (hy : y < g.length) (hx : x < (g.getD y []).length) :
    cellAt (gridSet g y x c) y x = c := by
  unfold cellAt
  rw [getD_gridSet]
  rw [if_pos ⟨rfl, hy⟩]
  exact getD_set_self _ _ _ _ hx

/-- A write leaves every other cell unchanged. -/
theorem cellAt_gridSet_ne (g : Grid) (y x : Nat) (c : Char) (y' x' : Nat)
    (h : y ≠ y' ∨ x ≠ x') :
    cellAt (gridSet g y x c) y' x' = cellAt g y' x' := by
  unfold cellAt
  rw [getD_gridSet]
  rcases h with h | h
  · rw [if_neg (fun hc => h hc.1)]
  · by_cases h1 : y = y' ∧ y < g.length
    · rw [if_pos h1, ← h1.1, getD_set_ne _ _ _ _ _ h]
    · rw [if_neg h1]

/-- `gridSet` preserves the number of rows. -/
theorem length_gridSet (g : Grid) (y x : Nat) (c : Char) :
    (gridSet g y x c).length = g.length := List.length_set ..

/-- `gridSet` preserves the length of every row. -/
theorem rowLen_gridSet (g : Grid) (y x : Nat) (c : Char) (y' : Nat) :
    ((gridSet g y x c).getD y' []).length = (g.getD y' []).length := by
  rw [getD_gridSet]
  by_cases h : y = y' ∧ y < g.length
  · rw [if_pos h, List.length_set, h.1]
  · rw [if_neg h]

/-- `connectRun` never changes a non-blank cell. -/
theorem cellAt_connectRun_of_ne (x : Nat) (c : Char) (s k : Nat) (g : Grid)
    (y x' : Nat) (h : cellAt g y x' ≠ ' ') :
    cellAt (connectRun x c s k g) y x' = cellAt g y x' := by
  induction k generalizing s g with
  | zero => rfl
  | succ k ih =>
    show cellAt (connectRun x c (s + 1) k
      (if cellAt g s x = ' ' then gridSet g s x c else g)) y x' = cellAt g y x'
    have hpres :
        cellAt (if cellAt g s x = ' ' then gridSet g s x c else g) y x' =
          cellAt g y x' := by
      by_cases hc : cellAt g s x = ' '
      · rw [if_pos hc]
        by_cases hyx : s = y ∧ x = x'
        · exact absurd (hyx.1 ▸ hyx.2 ▸ hc) h
        · refine cellAt_gridSet_ne g s x c y x' ?_
          by_cases hsy : s = y
          · exact Or.inr (fun hxx => hyx ⟨hsy, hxx⟩)
          · exact Or.inl hsy
      · rw [if_neg hc]
    rw [ih (s + 1) _ (hpres ▸ h), hpres]

/-- `connectRun` preserves the number of rows. -/
theorem length_connectRun (x : Nat) (c : Char) (s k : Nat) (g : Grid) :
    (connectRun x c s k g).length = g.length := by
  induction k generalizing s g with
  | zero => rfl
  | succ k ih =>
    show (connectRun x c (s + 1) k
      (if cellAt g s x = ' ' then gridSet g s x c else g)).length = g.length
    rw [ih]
    by_cases hc : cellAt g s x = ' '
    · rw [if_pos hc, length_gridSet]
    · rw [if_neg hc]

/-- `connectRun` preserves the length of every row. -/
theorem rowLen_connectRun (x : Nat) (c : Char) (s k : Nat) (g : Grid)
    (y' : Nat) :
    ((connectRun x c s k g).getD y' []).length = ((g.getD y' []).length) := by
  induction k generalizing s g with
  | zero => rfl
  | succ k ih =>
    show (((connectRun x c (s + 1) k
      (if cellAt g s x = ' ' then gridSet g s x c else g)).getD y' []).length) = _
    rw [ih]
    by_cases hc : cellAt g s x = ' '
    · rw [if_pos hc, rowLen_gridSet]
    · rw [if_neg hc]

/-- `connect` never changes a non-blank cell. -/
theorem cellAt_connect_of_ne (g : Grid) (x y1 y2 : Nat) (y x' : Nat)
    (h : cellAt g y x' ≠ ' ') :
    cellAt (connect g x y1 y2) y x' = cellAt g y x' :=
  cellAt_connectRun_of_ne _ _ _ _ _ _ _ h

/-- `connect` preserves the number of rows. -/
theorem length_connect (g : Grid) (x y1 y2 : Nat) :
    (connect g x y1 y2).length = g.length := length_connectRun ..

/-- `connect` preserves the length of every row. -/
theorem rowLen_connect (g : Grid) (x y1 y2 : Nat) (y' : Nat) :
    ((connect g x y1 y2).getD y' []).length = ((g.getD y' []).length) :=
  rowLen_connectRun ..

/-- Past iterations' columns: `plotLoop` starting at column `i` never changes
a non-blank cell in a column `x < i` (iteration `j ≥ i` writes its dot at
column `j` and its connectors, only into blank cells, at column `j - 1`). -/
theorem cellAt_plotLoop_of_lt (rows : List Nat) (i : Nat) (prev : Option Nat)
    (g : Grid) (y x : Nat) (hx : x < i) (h : cellAt g y x ≠ ' ') :
    cellAt (plotLoop i prev rows g) y x = cellAt g y x := by
  induction rows generalizing i prev g with
  | nil => cases prev <;> rfl
  | cons r t ih =>
    cases prev with
    | none =>
      show cellAt (plotLoop (i + 1) (some r) t (gridSet g r i '●')) y x = _
      have h1 : cellAt (gridSet g r i '●') y x = cellAt g y x :=
        cellAt_gridSet_ne g r i '●' y x (Or.inr (by omega))
      rw [ih (i + 1) (some r) _ (by omega) (h1 ▸ h), h1]
    | some p =>
      show cellAt (plotLoop (i + 1) (some r) t
        (connect (gridSet g r i '●') (i - 1) p r)) y x = _
      have h1 : cellAt (gridSet g r i '●') y x = cellAt g y x :=
        cellAt_gridSet_ne g r i '●' y x (Or.inr (by omega))
      have h2 : cellAt (connect (gridSet g r i '●') (i - 1) p r) y x =
          cellAt (gridSet g r i '●') y x :=
        cellAt_connect_of_ne _ _ _ _ _ _ (h1 ▸ h)
      rw [ih (i + 1) (some r) _ (by omega) ((h2.trans h1) ▸ h), h2, h1]

/-- `plotLoop` preserves the number of rows. -/
theorem length_plotLoop (rows : List Nat) (i : Nat) (prev : Option Nat)
    (g : Grid) : (plotLoop i prev rows g).length = g.length := by
  induction rows generalizing i prev g with
  | nil => cases prev <;> rfl
  | cons r t ih =>
    cases prev with
    | none =>
      show (plotLoop (i + 1) (some r) t (gridSet g r i '●')).length = _
      rw [ih, length_gridSet]
    | some p =>
      show (plotLoop (i + 1) (some r) t
        (connect (gridSet g r i '●') (i - 1) p r)).length = _
      rw [ih, length_connect, length_gridSet]

/-- `plotLoop` preserves the length of every row. -/
theorem rowLen_plotLoop (rows : List Nat) (i : Nat) (prev : Option Nat)
    (g : Grid) (y' : Nat) :
    ((plotLoop i prev rows g).getD y' []).length = ((g.getD y' []).length) := by
  induction rows generalizing i prev g with
  | nil => cases prev <;> rfl
  | cons r t ih =>
    cases prev with
    | none =>
      show (((plotLoop (i + 1) (some r) t (gridSet g r i '●')).getD y' []).length) = _
      rw [ih, rowLen_gridSet]
    | some p =>
      show (((plotLoop (i + 1) (some r) t
        (connect (gridSet g r i '●') (i - 1) p r)).getD y' []).length) = _
      rw [ih, rowLen_connect, rowLen_gridSet]

/-- The plotting loop puts the dot of the `k`-th remaining sample at its
precomputed row and at column `i + k`, and no later iteration overwrites it
(dots are written unconditionally at fresh columns; connectors only fill
blank cells). -/
theorem plotLoop_dot (rows : List Nat) (i : Nat) (prev : Option Nat)
    (g : Grid) (w : Nat)
    (hlen : g.length = 15)
    (hrow : ∀ y', y' < 15 → (g.getD y' []).length = w)
    (hbound : i + rows.length ≤ w)
    (hlt : ∀ r ∈ rows, r < 15) :
    ∀ k, k < rows.length →
      cellAt (plotLoop i prev rows g) (rows.getD k 0) (i + k) = '●' := by
  induction rows generalizing i prev g with
  | nil =>
    intro k hk
    exact absurd hk (by simp)
  | cons r t ih =>
    intro k hk
    have hr15 : r < 15 := hlt r (List.mem_cons_self r t)
    have hiw : i < w := by
      have := hbound
      simp only [List.length_cons] at this
      omega
    have hdot : cellAt (gridSet g r i '●') r i = '●' :=
      cellAt_gridSet_self g r i '●' (by rw [hlen]; exact hr15)
        (by rw [hrow r hr15]; exact hiw)
    cases prev with
    | none =>
      show cellAt (plotLoop (i + 1) (some r) t (gridSet g r i '●'))
        (List.getD (r :: t) k 0) (i + k) = '●'
      cases k with
      | zero =>
        have hpres := cellAt_plotLoop_of_lt t (i + 1) (some r)
          (gridSet g r i '●') r i (by omega) (by rw [hdot]; decide)
        show cellAt (plotLoop (i + 1) (some r) t (gridSet g r i '●')) r i = '●'
        rw [hpres, hdot]
      | succ k2 =>
        show cellAt (plotLoop (i + 1) (some r) t (gridSet g r i '●'))
          (List.getD t k2 0) (i + (k2 + 1)) = '●'
        rw [show i + (k2 + 1) = (i + 1) + k2 by omega]
        refine ih (i + 1) (some r) (gridSet g r i '●')
          (by rw [length_gridSet, hlen])
          (fun y' hy' => by rw [rowLen_gridSet]; exact hrow y' hy')
          (by simp only [List.length_cons] at hbound; omega)
          (fun x hx => hlt x (List.mem_cons_of_mem r hx)) k2 ?_
        simp only [List.length_cons] at hk
        omega
    | some p =>
      have hdot2 : cellAt (connect (gridSet g r i '●') (i - 1) p r) r i = '●' := by
        rw [cellAt_connect_of_ne _ _ _ _ _ _ (by rw [hdot]; decide), hdot]
      show cellAt (plotLoop (i + 1) (some r) t
        (connect (gridSet g r i '●') (i - 1) p r)) (List.getD (r :: t) k 0)
        (i + k) = '●'
      cases k with
      | zero =>
        have hpres := cellAt_plotLoop_of_lt t (i + 1) (some r)
          (connect (gridSet g r i '●') (i - 1) p r) r i (by omega)
          (by rw [hdot2]; decide)
        show cellAt (plotLoop (i + 1) (some r) t
          (connect (gridSet g r i '●') (i - 1) p r)) r i = '●'
        rw [hpres, hdot2]
      | succ k2 =>
        show cellAt (plotLoop (i + 1) (some r) t
          (connect (gridSet g r i '●') (i - 1) p r)) (List.getD t k2 0)
          (i + (k2 + 1)) = '●'
        rw [show i + (k2 + 1) = (i + 1) + k2 by omega]
        refine ih (i + 1) (some r) (connect (gridSet g r i '●') (i - 1) p r)
          (by rw [length_connect, length_gridSet, hlen])
          (fun y' hy' => by rw [rowLen_connect, rowLen_gridSet]; exact hrow y' hy')
          (by simp only [List.length_cons] at hbound; omega)
          (fun x hx => hlt x (List.mem_cons_of_mem r hx)) k2 ?_
        simp only [List.length_cons] at hk
        omega

/-- On non-negative arguments Python's `int()` is the floor. -/
theorem pyInt_of_nonneg (q : ℚ) (h : 0 ≤ q) : pyInt q = ⌊q⌋ := if_pos h

/-- The interpolation argument `(height-1)*(1 - (v-min)/(max-min))` lies in
`[0, 14]` whenever `min ≤ v ≤ max` with `min < max`. -/
theorem interp_bounds (minv maxv v : ℚ) (hlt : minv < maxv)
    (h1 : minv ≤ v) (h2 : v ≤ maxv) :
    0 ≤ (15 - 1 : ℚ) * (1 - (v - minv) / (maxv - minv)) ∧
      (15 - 1 : ℚ) * (1 - (v - minv) / (maxv - minv)) ≤ 14 := by
  have hd : (0 : ℚ) < maxv - minv := by linarith
  have ht0 : 0 ≤ (v - minv) / (maxv - minv) := div_nonneg (by linarith) hd.le
  have ht1 : (v - minv) / (maxv - minv) ≤ 1 := by
    rw [div_le_one hd]
    linarith
  constructor
  · nlinarith
  · nlinarith

/-- For in-range values the row index is at most 14, hence inside the 15-row
grid. -/
theorem rowOf_lt15 (minv maxv v : ℚ) (h1 : minv ≤ v) (h2 : v ≤ maxv) :
    rowOf minv maxv v < 15 := by
  unfold rowOf
  by_cases hlt : minv < maxv
  · rw [if_pos hlt]
    obtain ⟨hq0, hq14⟩ := interp_bounds minv maxv v hlt h1 h2
    rw [pyInt_of_nonneg _ hq0]
    have hfl : ⌊(15 - 1 : ℚ) * (1 - (v - minv) / (maxv - minv))⌋ ≤ 14 := by
      have h14 : ⌊(14 : ℚ)⌋ = 14 := by
        rw [show (14 : ℚ) = ((14 : ℤ) : ℚ) by norm_num, Int.floor_intCast]
      calc ⌊(15 - 1 : ℚ) * (1 - (v - minv) / (maxv - minv))⌋
          ≤ ⌊(14 : ℚ)⌋ := Int.floor_le_floor hq14
        _ = 14 := h14
    have : (⌊(15 - 1 : ℚ) * (1 - (v - minv) / (maxv - minv))⌋).toNat ≤ 14 :=
      Int.toNat_le.mpr (by exact_mod_cast hfl)
    omega
  · rw [if_neg hlt]
    decide

/-- With a genuine spread, the minimum value maps to the bottom row 14. -/
theorem rowOf_min_eq (minv maxv : ℚ) (hlt : minv < maxv) :
    rowOf minv maxv minv = 14 := by
  unfold rowOf
  rw [if_pos hlt]
  have h0 : (minv - minv) / (maxv - minv) = 0 := by
    rw [sub_self, zero_div]
  rw [h0]
  rw [show (15 - 1 : ℚ) * (1 - 0) = ((14 : ℤ) : ℚ) by norm_num]
  rw [pyInt_of_nonneg _ (by norm_num), Int.floor_intCast]
  rfl

/-- With a genuine spread, the maximum value maps to the top row 0. -/
theorem rowOf_max_eq (minv maxv : ℚ) (hlt : minv < maxv) :
    rowOf minv maxv maxv = 0 := by
  unfold rowOf
  rw [if_pos hlt]
  have h1 : (maxv - minv) / (maxv - minv) = 1 :=
    div_self (by intro hc; rw [sub_eq_zero] at hc; exact absurd hc (ne_of_gt hlt))
  rw [h1]
  rw [show (15 - 1 : ℚ) * (1 - 1) = ((0 : ℤ) : ℚ) by norm_num]
  rw [pyInt_of_nonneg _ (by norm_num), Int.floor_intCast]
  rfl

/-- Without a spread (all samples equal), every value maps to the middle
row `15 // 2 = 7`. -/
theorem rowOf_const (minv maxv v : ℚ) (hlt : ¬ minv < maxv) :
    rowOf minv maxv v = 7 := by
  unfold rowOf
  rw [if_neg hlt]

/-- The row mapping in closed form: a floor (truncation), not a rounding. -/
theorem rowOf_floor_formula (minv maxv v : ℚ) (h1 : minv ≤ v) (h2 : v ≤ maxv) :
    rowOf minv maxv v =
      if minv < maxv then
        (⌊(14 : ℚ) * (1 - (v - minv) / (maxv - minv))⌋).toNat
      else 7 := by
  unfold rowOf
  by_cases hlt : minv < maxv
  · rw [if_pos hlt, if_pos hlt,
      pyInt_of_nonneg _ (interp_bounds minv maxv v hlt h1 h2).1]
    norm_num
  · rw [if_neg hlt, if_neg hlt]

/-- The fresh grid has 15 rows. -/
theorem length_mkGrid (h w : Nat) : (mkGrid h w).length = h :=
  List.length_replicate ..

/-- Every row of the fresh grid has length `w`. -/
theorem rowLen_mkGrid (h w : Nat) (y' : Nat) (hy : y' < h) :
    ((mkGrid h w).getD y' []).length = w := by
  unfold mkGrid
  rw [List.getD_eq_getElem?_getD, List.getElem?_replicate, if_pos hy]
  exact List.length_replicate ..

/-- In-range `getD` commutes with `map`. -/
theorem getD_map_eq (l : List ℚ) (f : ℚ → Nat) (k : Nat) (hk : k < l.length) :
    (l.map f).getD k 0 = f (l.getD k 0) := by
  rw [List.getD_eq_getElem?_getD, List.getElem?_map,
    List.getElem?_eq_getElem hk, List.getD_eq_getElem?_getD,
    List.getElem?_eq_getElem hk]
  rfl

/-- C1 (amended) — For every non-empty sample list, `_draw_ascii_graph` builds
a 15-row grid with exactly one column per sample, and the dot of the `k`-th
sample `v` sits on the row `rowOf min max v`; with a genuine spread that row
is `⌊(H-1) * (1 - (v - min)/(max - min))⌋` (truncation via Python `int()`,
**not** rounding) with `H = 15` — so every minimum sample lands on the bottom
row 14 and every maximum sample on the top row 0 — and when all samples are
equal every sample lands on the middle row 7. -/
theorem draw_ascii_graph_rows (data : List ℚ) (h : data ≠ []) :
    (draw_ascii_graph data).length = 15 ∧
    (∀ y, y < 15 → ((draw_ascii_graph data).getD y []).length = data.length) ∧
    (∀ k, k < data.length →
      cellAt (draw_ascii_graph data)
        (rowOf (listMin data) (listMax data) (data.getD k 0)) k = '●') ∧
    (listMin data < listMax data →
      rowOf (listMin data) (listMax data) (listMin data) = 14 ∧
      rowOf (listMin data) (listMax data) (listMax data) = 0) ∧
    (¬ listMin data < listMax data →
      ∀ v : ℚ, rowOf (listMin data) (listMax data) v = 7) ∧
    (∀ v : ℚ, listMin data ≤ v → v ≤ listMax data →
      rowOf (listMin data) (listMax data) v =
        if listMin data < listMax data then
          (⌊(14 : ℚ) *
            (1 - (v - listMin data) / (listMax data - listMin data))⌋).toNat
        else 7) := by
  cases hdata : data with
  | nil => exact absurd hdata h
  | cons d t =>
    subst hdata
    have hne : (d :: t) ≠ [] := by simp
    have hgrid : draw_ascii_graph (d :: t) =
        plotLoop 0 none
          ((d :: t).map (rowOf (listMin (d :: t)) (listMax (d :: t))))
          (mkGrid 15 (d :: t).length) := rfl
    refine ⟨?_, ?_, ?_, fun hlt => ⟨rowOf_min_eq _ _ hlt, rowOf_max_eq _ _ hlt⟩,
      fun hlt v => rowOf_const _ _ v hlt,
      fun v h1 h2 => rowOf_floor_formula _ _ v h1 h2⟩
    · rw [hgrid, length_plotLoop, length_mkGrid]
    · intro y hy
      rw [hgrid, rowLen_plotLoop, rowLen_mkGrid 15 _ y hy]
    · intro k hk
      have hdot := plotLoop_dot
        ((d :: t).map (rowOf (listMin (d :: t)) (listMax (d :: t)))) 0 none
        (mkGrid 15 (d :: t).length) (d :: t).length
        (length_mkGrid 15 _)
        (fun y' hy' => rowLen_mkGrid 15 _ y' hy')
        (by rw [List.length_map]; omega)
        (fun r hr => by
          obtain ⟨v, hv, hveq⟩ := List.mem_map.mp hr
          subst hveq
          exact rowOf_lt15 _ _ v ((listMin_spec _ hne).2 v hv)
            ((listMax_spec _ hne).2 v hv))
        k (by rw [List.length_map]; exact hk)
      rw [getD_map_eq _ _ k hk, Nat.zero_add] at hdot
      rw [hgrid]
      exact hdot

set_option maxRecDepth 4000 in
/-- C1 witness — For samples `[10, 20, 10]` (the spec's example) the grid has
15 rows and 3 columns; the two minimum samples land on the bottom row 14 (at
columns 0 and 2), the maximum sample on the top row 0 (at column 1). -/
theorem draw_ascii_graph_rows_witness :
    ([(10 : ℚ), 20, 10] ≠ []) ∧
    (draw_ascii_graph [(10 : ℚ), 20, 10]).length = 15 ∧
    rowOf (listMin [(10 : ℚ), 20, 10]) (listMax [(10 : ℚ), 20, 10]) 10 = 14 ∧
    rowOf (listMin [(10 : ℚ), 20, 10]) (listMax [(10 : ℚ), 20, 10]) 20 = 0 ∧
    cellAt (draw_ascii_graph [(10 : ℚ), 20, 10]) 14 0 = '●' ∧
    cellAt (draw_ascii_graph [(10 : ℚ), 20, 10]) 0 1 = '●' ∧
    cellAt (draw_ascii_graph [(10 : ℚ), 20, 10]) 14 2 = '●' := by
  have hmin : listMin [(10 : ℚ), 20, 10] = 10 := by
    norm_num [listMin, List.foldl, min_def]
  have hmax : listMax [(10 : ℚ), 20, 10] = 20 := by
    norm_num [listMax, List.foldl, max_def]
  obtain ⟨hlen, hrows, hdots, hminmax, hconst, hform⟩ :=
    draw_ascii_graph_rows [(10 : ℚ), 20, 10] (by simp)
  have r10 : rowOf (listMin [(10 : ℚ), 20, 10]) (listMax [(10 : ℚ), 20, 10]) 10 = 14 := by
    rw [hmin, hmax]
    exact rowOf_min_eq 10 20 (by norm_num)
  have r20 : rowOf (listMin [(10 : ℚ), 20, 10]) (listMax [(10 : ℚ), 20, 10]) 20 = 0 := by
    rw [hmin, hmax]
    exact rowOf_max_eq 10 20 (by norm_num)
  have h0 := hdots 0 (by norm_num)
  have h1 := hdots 1 (by norm_num)
  have h2 := hdots 2 (by norm_num)
  rw [show [(10 : ℚ), 20, 10].getD 0 0 = 10 from rfl, r10] at h0
  rw [show [(10 : ℚ), 20, 10].getD 1 0 = 20 from rfl, r20] at h1
  rw [show [(10 : ℚ), 20, 10].getD 2 0 = 10 from rfl, r10] at h2
  exact ⟨by simp, hlen, r10, r20, h0, h1, h2⟩

set_option maxRecDepth 4000 in
/-- C1 counterexample — The claim's `round` formula is refuted on the samples
`[0, 3, 10]`: for the middle sample 3 the interpolation argument is
`14 * (1 - 3/10) = 9.8`, the claimed row `round(9.8) = 10`, but the code uses
`int()` (truncation), placing the dot on row `⌊9.8⌋ = 9`; in the rendered
grid, column 1 carries its dot at row 9 and no dot at row 10. -/
theorem draw_ascii_graph_round_refuted :
    listMin [(0 : ℚ), 3, 10] = 0 ∧
    listMax [(0 : ℚ), 3, 10] = 10 ∧
    (round ((14 : ℚ) * (1 - ((3 : ℚ) - 0) / (10 - 0)))).toNat = 10 ∧
    rowOf 0 10 3 = 9 ∧
    cellAt (draw_ascii_graph [(0 : ℚ), 3, 10]) 10 1 ≠ '●' ∧
    cellAt (draw_ascii_graph [(0 : ℚ), 3, 10]) 9 1 = '●' := by
  have hmin : listMin [(0 : ℚ), 3, 10] = 0 := by
    norm_num [listMin, List.foldl, min_def]
  have hmax : listMax [(0 : ℚ), 3, 10] = 10 := by
    norm_num [listMax, List.foldl, max_def]
  have hround : (round ((14 : ℚ) * (1 - ((3 : ℚ) - 0) / (10 - 0)))).toNat = 10 := by
    rw [show ((14 : ℚ) * (1 - ((3 : ℚ) - 0) / (10 - 0))) = 49 / 5 by norm_num]
    rw [round_eq]
    rw [show ((49 : ℚ) / 5 + 1 / 2) = 103 / 10 by norm_num]
    rw [show ⌊(103 : ℚ) / 10⌋ = 10 from by rw [Int.floor_eq_iff] <;> norm_num]
    rfl
  have h9 : rowOf 0 10 3 = 9 := by
    unfold rowOf
    rw [if_pos (by norm_num : (0 : ℚ) < 10)]
    rw [show ((15 - 1 : ℚ) * (1 - ((3 : ℚ) - 0) / (10 - 0))) = 49 / 5 by norm_num]
    rw [pyInt_of_nonneg _ (by norm_num)]
    rw [show ⌊(49 : ℚ) / 5⌋ = 9 from by rw [Int.floor_eq_iff] <;> norm_num]
    rfl
  have r0 : rowOf 0 10 0 = 14 := rowOf_min_eq 0 10 (by norm_num)
  have r10 : rowOf 0 10 10 = 0 := rowOf_max_eq 0 10 (by norm_num)
  have hmap : [(0 : ℚ), 3, 10].map (rowOf 0 10) = [14, 9, 0] := by
    simp only [List.map_cons, List.map_nil]
    rw [r0, h9, r10]
  have hgrid : draw_ascii_graph [(0 : ℚ), 3, 10] =
      plotLoop 0 none [14, 9, 0] (mkGrid 15 3) := by
    show plotLoop 0 none
      ([(0 : ℚ), 3, 10].map
        (rowOf (listMin [(0 : ℚ), 3, 10]) (listMax [(0 : ℚ), 3, 10])))
      (mkGrid 15 3) = _
    rw [hmin, hmax, hmap]
  refine ⟨hmin, hmax, hround, h9, ?_, ?_⟩
  · rw [hgrid]
    decide
  · rw [hgrid]
    decide

end Monitoring
